import Mathlib

/-!
Verification of the multi-server tool aggregation and dispatch core of the
MCP_AGENT_1 repository (client side: `ClientManager`, `MCPClient`,
`extract_json`, `classify_intent`, `_extract_argument` / `execute_mcp_tool`).

Python strings are embedded as `List Char`; Python `None`-able values as
`Option`; Python exceptions as explicit outcome constructors.  External
collaborators (the `json` standard library, the SSE transport, the LLM
oracle) are parameters of the embedded functions: `json.loads` becomes a
parameter `loads : List Char → Option JsonV` whose `none` models a
`JSONDecodeError`, the transport becomes an outcome-valued environment,
and the oracle becomes an outcome returning free text or raising.
-/

set_option maxHeartbeats 1000000
set_option maxRecDepth 4000

/-- Convert a Lean string literal to the `List Char` embedding of Python strings. -/
def pys (s : String) : List Char := s.data

/-- The single-quote character (Char 39), used by the error messages in the source. -/
def squote : Char := Char.ofNat 39

/-- Python whitespace characters stripped by `str.strip()`. -/
def pyIsSpace (c : Char) : Bool :=
  c = ' ' || c = '\t' || c = '\n' || c = '\r' || c = Char.ofNat 11 || c = Char.ofNat 12

/-- Python `str.strip()`: remove whitespace from both ends. -/
def pyStrip (s : List Char) : List Char :=
  ((s.dropWhile pyIsSpace).reverse.dropWhile pyIsSpace).reverse

/-- Python `str.lower()` (ASCII case folding, which is all the source uses). -/
def pyLower (s : List Char) : List Char := s.map Char.toLower

/-- Python `a.startswith(b)`. -/
def pyStartsWith (s p : List Char) : Bool := p.isPrefixOf s

/-- Python `a.endswith(b)`. -/
def pyEndsWith (s p : List Char) : Bool := p.isSuffixOf s

/-- Python `content.find(c)` for a single character: index of the first
occurrence, `-1` if absent. -/
def pyFind (s : List Char) (c : Char) : Int :=
  match s.findIdx? (fun x => x = c) with
  | some i => (i : Int)
  | none => -1

/-- Python `content.rfind(c)` for a single character: index of the last
occurrence, `-1` if absent. -/
def pyRFind (s : List Char) (c : Char) : Int :=
  match s.reverse.findIdx? (fun x => x = c) with
  | some i => (s.length - 1 - i : Int)
  | none => -1

/-- Python slice `s[a : b]` for `0 ≤ a ≤ b` (as used in `extract_json`). -/
def pySlice (s : List Char) (a b : Nat) : List Char := (s.drop a).take (b - a)

/-! ## JSON values

`json.loads` is an external library call; we embed its result type.  The
client code only discriminates objects (dicts) and string field values, so
all other JSON values are collapsed into one constructor. -/

/-- Embedded result of `json.loads`: an object, a string, or any other value. -/
inductive JsonV where
  | obj : List (List Char × JsonV) → JsonV
  | str : List Char → JsonV
  | otherVal : JsonV

/-- Python `dict.get(key)` on the field list of a JSON object. -/
def dictGet (fields : List (List Char × JsonV)) (key : List Char) : Option JsonV :=
  match fields.find? (fun p => decide (p.1 = key)) with
  | some p => some p.2
  | none => none

/-! ## `structured_responses.extract_json`

Source: `src/client/utils/structured_responses.py`, lines 11-45.  The call
to `json.loads` is the parameter `loads`; its `none` covers both the
`JSONDecodeError` branch and the catch-all `except`, each of which returns
`None` in the source. -/

/-- The opening curly brace character (Char 123). -/
def lbrace : Char := Char.ofNat 123

/-- The closing curly brace character (Char 125). -/
def rbrace : Char := Char.ofNat 125

/-- `extract_json(content)`: slice from the first `{` to the last `}` and
parse; `None` when the braces are missing or out of order, or parsing fails. -/
def extract_json (loads : List Char → Option JsonV) (content : List Char) :
    Option JsonV :=
  let start_index := pyFind content lbrace
  let end_index := pyRFind content rbrace
  if start_index ≠ -1 ∧ end_index ≠ -1 ∧ end_index > start_index then
    loads (pySlice content start_index.toNat (end_index.toNat + 1))
  else
    none

/-! ## `tool_executor._extract_argument` and the intent-to-tool mapping

Source: `src/client/agents/tool_executor.py`. -/

/-- First prefix (if any) of `prefixes` that case-insensitively starts the
query; mirrors the `for prefix ... break` loop. -/
def findMatchingPrefix (content : List Char) (prefixes : List (List Char)) :
    Option (List Char) :=
  prefixes.find? (fun p => pyStartsWith (pyLower content) (pyLower p))

/-- First suffix (if any) of `suffixes` that case-insensitively ends the
content; mirrors the `for suffix ... break` loop. -/
def findMatchingSuffix (content : List Char) (suffixes : List (List Char)) :
    Option (List Char) :=
  suffixes.find? (fun s => pyEndsWith (pyLower content) (pyLower s))

/-- `_extract_argument(query, prefixes, suffixes)`: strip the first matching
lead-in phrase, then (when suffixes are given) the first matching trailing
phrase, stripping whitespace after each removal. -/
def extract_argument (query : List Char) (prefixes : List (List Char))
    (suffixes : Option (List (List Char))) : List Char :=
  let content := query
  let content :=
    match findMatchingPrefix content prefixes with
    | some p => pyStrip (content.drop p.length)
    | none => content
  match suffixes with
  | none => content
  | some sfx =>
    match findMatchingSuffix content sfx with
    | some s => pyStrip (content.take (content.length - s.length))
    | none => content

/-- The intent → (tool name, tool input) mapping of `execute_mcp_tool`
(`src/client/agents/tool_executor.py`, lines 58-86); `none` is the
"no specific tool action" fall-through for `other` and unknown intents. -/
def map_intent_to_tool (query intent : List Char) :
    Option (List Char × List (List Char × List Char)) :=
  if intent = pys "save_memory" then
    some (pys "save_memory",
      [(pys "content",
        extract_argument query [pys "Save a memory:", pys "Remember:"] none)])
  else if intent = pys "search_memories" then
    some (pys "search_memories",
      [(pys "query",
        extract_argument query
          [pys "Search for memories about", pys "Search memories for",
           pys "Find memories about"] none)])
  else if intent = pys "get_all_memories" then
    some (pys "get_all_memories", [])
  else if intent = pys "readTasks" then
    some (pys "get_tasks", [])
  else if intent = pys "newTask" then
    some (pys "add_new_task",
      [(pys "task",
        extract_argument query
          [pys "Add a task:", pys "New task:", pys "Create task:"] none)])
  else if intent = pys "markTaskAsDone" then
    some (pys "complete_task",
      [(pys "task",
        extract_argument query [pys "Mark task", pys "Complete task:"]
          (some [pys "as done", pys "as completed"]))])
  else if intent = pys "getEvents" then
    some (pys "get_events", [])
  else
    none

/-! ## `ClientManager.connect_to_server`

Source: `src/client/utils/client_manager.py`, lines 59-84.  Each configured
client is identified by its name; the environment `env` gives the outcome of
`client.connect_to_sse_server()`: an exception (caught by the per-client
`except`) or success together with the tool list the client fetched
(`client.tools`, already in `ChatCompletionToolParam` shape). -/

/-- The `function` member of a `ChatCompletionToolParam` dict; its `name`
is `none` when the key is missing or the value is falsy (`if tool_name:`). -/
structure ToolFn where
  name : Option (List Char)

/-- One `ChatCompletionToolParam`: `tool_param.get("type")` and
`tool_param.get("function")` (`none` models a missing or falsy value). -/
structure ToolParam where
  ty : Option (List Char)
  fn : Option ToolFn

/-- Outcome of `client.connect_to_sse_server()` for one client: raise, or
succeed with the tool list the client discovered. -/
inductive ConnectOutcome where
  | fail : ConnectOutcome
  | ok : List ToolParam → ConnectOutcome

/-- The aggregated state `connect_to_server` rebuilds: `self.tools` and
`self.tool_map` (tool name → owning client name). -/
structure ManagerState where
  tools : List ToolParam
  tool_map : List Char → Option (List Char)

/-- The name under which a tool param is registered in `tool_map`:
requires `type == "function"`, a truthy `function` member and a truthy name. -/
def registeredName (tp : ToolParam) : Option (List Char) :=
  if tp.ty = some (pys "function") then
    match tp.fn with
    | some f =>
      match f.name with
      | some n => if n = [] then none else some n
      | none => none
    | none => none
  else
    none

/-- Python dict assignment `tool_map[tool_name] = client` on the functional
representation of the map. -/
def mapSet (m : List Char → Option (List Char)) (k v : List Char) :
    List Char → Option (List Char) :=
  fun x => if x = k then some v else m x

/-- The inner `for tool_param in client.tools` registration loop. -/
def register_tools (client : List Char) (ctools : List ToolParam)
    (m : List Char → Option (List Char)) : List Char → Option (List Char) :=
  ctools.foldl
    (fun m tp =>
      match registeredName tp with
      | some n => mapSet m n client
      | none => m)
    m

/-- The loop body of `connect_to_server()` for one client: a raising
client is caught (`except Exception`) and contributes nothing; a successful
client appends its tools and registers each named function tool. -/
def connect_step (env : List Char → ConnectOutcome) (st : ManagerState)
    (client : List Char) : ManagerState :=
  match env client with
  | ConnectOutcome.fail => st
  | ConnectOutcome.ok ctools =>
    { tools := st.tools ++ ctools,
      tool_map := register_tools client ctools st.tool_map }

/-- `connect_to_server()`: clear `tools`/`tool_map`, then run the per-client
loop over all configured clients in order.  The function has no raise path
of its own (there is no `NoServersAvailable` anywhere in the source). -/
def connect_to_server (clients : List (List Char))
    (env : List Char → ConnectOutcome) : ManagerState :=
  clients.foldl (connect_step env) { tools := [], tool_map := fun _ => none }

/-- Whether a client, under `env`, successfully connects and exposes a tool
that registers under name `n` (used to state the collision policy). -/
def exposes (env : List Char → ConnectOutcome) (client n : List Char) : Bool :=
  match env client with
  | ConnectOutcome.fail => false
  | ConnectOutcome.ok ctools => ctools.any (fun tp => registeredName tp = some n)

/-- The tools contributed by one client: its fetched list on success,
nothing on a connection failure. -/
def contributedTools (env : List Char → ConnectOutcome) (client : List Char) :
    List ToolParam :=
  match env client with
  | ConnectOutcome.fail => []
  | ConnectOutcome.ok ctools => ctools

/-! ## `ClientManager.process_tool_call`

Source: `src/client/utils/client_manager.py`, lines 86-132.  The transport
side of `client_for_tool.call_tool(...)` and the `str(...)` fallback
rendering are environment parameters; `json.loads` is the same `loads`
parameter as in `extract_json`. -/

/-- One item of `response_from_tool.content`: a `type == "text"` item
carrying its text, or an item of any other type. -/
inductive ContentItem where
  | textItem : List Char → ContentItem
  | otherItem : ContentItem

/-- The `content` attribute of a tool response: a list of items, or a
non-list value. -/
inductive RespContent where
  | lst : List ContentItem → RespContent
  | nonList : RespContent

/-- Outcome of awaiting `client.call_tool(tool_name, tool_arguments)`:
an exception (caught by the generic `except`) or a response. -/
inductive InvokeOutcome where
  | raised : InvokeOutcome
  | resp : RespContent → InvokeOutcome

/-- Observable side operations of the manager, used to state which lookups
and transport calls a code path performs. -/
inductive Op where
  | lookup : List Char → Op
  | invoke : List Char → List Char → Op
  | closeSession : List Char → Op
  | closeStreams : List Char → Op

/-- The dispatch environment: `json.loads`, the per-client transport call,
and Python `str(...)` on a response content (all external to the manager). -/
structure DispatchEnv where
  loads : List Char → Option JsonV
  invokeTool : List Char → List Char → JsonV → InvokeOutcome
  strRepr : RespContent → List Char

/-- One OpenAI `ChatCompletionMessageToolCall`: `id`, `function.name`,
`function.arguments` (a JSON string). -/
structure ToolCall where
  id : List Char
  name : List Char
  arguments : List Char

/-- `results.append` value for the success branch: `content[0].text` when
the content is a non-empty list whose first item has type `"text"`, else
the `str(response.content)` fallback. -/
def renderContent (env : DispatchEnv) (r : RespContent) : List Char :=
  match r with
  | RespContent.lst (ContentItem.textItem s :: _) => s
  | _ => env.strRepr r

/-- The `for tool_call in tool_calls` loop body: the appended result string
together with the lookup/transport operations it performs. -/
def process_one (tmap : List Char → Option (List Char)) (env : DispatchEnv)
    (tc : ToolCall) : List Char × List Op :=
  match tmap tc.name with
  | none =>
    (pys "Error: Tool " ++ [squote] ++ tc.name ++ [squote] ++ pys " not found.",
     [Op.lookup tc.name])
  | some client =>
    match env.loads tc.arguments with
    | none =>
      (pys "Error: Invalid arguments for tool " ++ [squote] ++ tc.name ++
         [squote] ++ pys ".",
       [Op.lookup tc.name])
    | some args =>
      match env.invokeTool client tc.name args with
      | InvokeOutcome.raised =>
        (pys "Error: Failed to execute tool " ++ [squote] ++ tc.name ++
           [squote] ++ pys ".",
         [Op.lookup tc.name, Op.invoke client tc.name])
      | InvokeOutcome.resp r =>
        (renderContent env r, [Op.lookup tc.name, Op.invoke client tc.name])

/-- `process_tool_call(tool_calls)`: early-return `[]` on a falsy argument
(`None` or the empty list), else process every call in order, appending one
result per request; also returns the sequence of operations performed. -/
def process_tool_call (tmap : List Char → Option (List Char))
    (env : DispatchEnv) (tool_calls : Option (List ToolCall)) :
    List (List Char) × List Op :=
  match tool_calls with
  | none => ([], [])
  | some [] => ([], [])
  | some tcs =>
    tcs.foldl
      (fun acc tc =>
        let r := process_one tmap env tc
        (acc.1 ++ [r.1], acc.2 ++ r.2))
      ([], [])

/-! ## `MCPClient.cleanup` and `ClientManager.cleanup`

Source: `src/client/utils/client.py` lines 91-110 and
`src/client/utils/client_manager.py` lines 134-142.  A client connection is
embedded by presence flags for `self.session`, `self._session_context` and
`self._streams_context`; the two `__aexit__` transport calls are an
environment returning success or an exception (the exception is caught, and
in the source the field clearing happens after the `try/except` either way). -/

/-- Outcome of awaiting a context `__aexit__`: normal return or an
exception (which `MCPClient.cleanup` catches and logs). -/
inductive AexitOutcome where
  | ok : AexitOutcome
  | raised : AexitOutcome

/-- The connection-lifecycle state of one `MCPClient`. -/
structure MCPClient where
  name : List Char
  session : Bool
  sessionCtx : Bool
  streamsCtx : Bool

/-- `MCPClient.cleanup()`: close the session context when both
`_session_context` and `session` are set, then the streams context when
`_streams_context` is set; each `__aexit__` exception is caught and the
fields are cleared regardless.  Returns the new state and the transport
close operations attempted. -/
def client_cleanup (aexitSession aexitStreams : List Char → AexitOutcome)
    (c : MCPClient) : MCPClient × List Op :=
  let step1 : MCPClient × List Op :=
    if c.sessionCtx && c.session then
      match aexitSession c.name with
      | AexitOutcome.ok =>
        ({ c with session := false, sessionCtx := false },
         [Op.closeSession c.name])
      | AexitOutcome.raised =>
        ({ c with session := false, sessionCtx := false },
         [Op.closeSession c.name])
    else
      (c, [])
  let c1 := step1.1
  if c1.streamsCtx then
    match aexitStreams c1.name with
    | AexitOutcome.ok =>
      ({ c1 with streamsCtx := false }, step1.2 ++ [Op.closeStreams c1.name])
    | AexitOutcome.raised =>
      ({ c1 with streamsCtx := false }, step1.2 ++ [Op.closeStreams c1.name])
  else
    (c1, step1.2)

/-- `ClientManager.cleanup()`: clean up every client in reverse order of
registration (`for client in reversed(self.clients)`), catching any
per-client exception.  Returns the clients (in their original list order,
with updated state) and the concatenated operation trace. -/
def cleanup (aexitSession aexitStreams : List Char → AexitOutcome)
    (clients : List MCPClient) : List MCPClient × List Op :=
  clients.reverse.foldl
    (fun acc c =>
      let r := client_cleanup aexitSession aexitStreams c
      (r.1 :: acc.1, acc.2 ++ r.2))
    ([], [])

/-! ## `MCPClient.call_tool`

Source: `src/client/utils/client.py`, lines 69-89. -/

/-- Result of `MCPClient.call_tool`: the `ValueError` raised when the
session is not initialized, an exception propagated from the transport, or
the transport response. -/
inductive CallToolResult where
  | valueError : List Char → CallToolResult
  | transportRaised : CallToolResult
  | ok : RespContent → CallToolResult

/-- `call_tool(tool_name, tool_input)`: raise `ValueError` naming the tool
when `self.session is None`, else perform the transport call.  Returns the
result, the (unchanged) client state, and the transport operations
performed. -/
def call_tool (transport : List Char → Option JsonV → InvokeOutcome)
    (c : MCPClient) (tool_name : List Char) (tool_input : Option JsonV) :
    CallToolResult × MCPClient × List Op :=
  if c.session then
    match transport tool_name tool_input with
    | InvokeOutcome.raised =>
      (CallToolResult.transportRaised, c, [Op.invoke c.name tool_name])
    | InvokeOutcome.resp r =>
      (CallToolResult.ok r, c, [Op.invoke c.name tool_name])
  else
    (CallToolResult.valueError
       (pys "Client " ++ [squote] ++ c.name ++ [squote] ++
        pys ": Session not initialized. Cannot call tool " ++ [squote] ++
        tool_name ++ [squote] ++ pys "."),
     c, [])

/-! ## `intent_classifier.classify_intent`

Source: `src/client/agents/intent_classifier.py`, lines 35-130.  The LLM
call is an oracle outcome (free text, or an exception that the enclosing
`try` catches); `json.loads` inside `extract_json` is the same `loads`
parameter.  The truthiness test `if extracted_data and ...` makes the empty
dict fall to the `other` branch, and `.get("action")` on a truthy non-dict
raises inside the `try`, which also degrades to `other`. -/

/-- The `ALLOWED_INTENTS` list of the source. -/
def ALLOWED_INTENTS : List (List Char) :=
  [pys "save_memory", pys "search_memories", pys "get_all_memories",
   pys "readTasks", pys "newTask", pys "markTaskAsDone", pys "getEvents",
   pys "other"]

/-- Outcome of the `client.chat.completions.create` call: the response text
of the first choice, or an exception. -/
inductive OracleOutcome where
  | raised : OracleOutcome
  | ok : List Char → OracleOutcome

/-- `classify_intent(query)`: extract the JSON object from the oracle
response and return its `action` when it is an allowed intent; every other
path (oracle exception, extraction failure, falsy or non-dict value, absent
or non-string or disallowed action) returns `"other"`. -/
def classify_intent (loads : List Char → Option JsonV)
    (oracle : List Char → OracleOutcome) (query : List Char) : List Char :=
  match oracle query with
  | OracleOutcome.raised => pys "other"
  | OracleOutcome.ok content =>
    match extract_json loads content with
    | none => pys "other"
    | some (JsonV.obj []) => pys "other"
    | some (JsonV.obj (f :: fs)) =>
      match dictGet (f :: fs) (pys "action") with
      | some (JsonV.str a) => if a ∈ ALLOWED_INTENTS then a else pys "other"
      | _ => pys "other"
    | some _ => pys "other"

/-- Modelled from the spec (§4.3): the "parsed action" of an oracle
response — the string `action` field of the JSON object extracted from the
response, when the oracle answered and such a field exists.  Used to state
claim C5 against `classify_intent`. -/
def spec_parsed_action (loads : List Char → Option JsonV)
    (oracle : List Char → OracleOutcome) (query : List Char) :
    Option (List Char) :=
  match oracle query with
  | OracleOutcome.raised => none
  | OracleOutcome.ok content =>
    match extract_json loads content with
    | some (JsonV.obj fields) =>
      match dictGet fields (pys "action") with
      | some (JsonV.str a) => some a
      | _ => none
    | _ => none

/-! ## Declarative index predicates

Used to state the `extract_json` window contract (spec §4.3: "extraction
takes the substring from the first `{` to the last `}`"). -/

/-- `i` is the index of the first occurrence of `c` in `l`. -/
def isFirstIdx (l : List Char) (c : Char) (i : Nat) : Prop :=
  l[i]? = some c ∧ ∀ k, k < i → l[k]? ≠ some c

/-- `j` is the index of the last occurrence of `c` in `l`. -/
def isLastIdx (l : List Char) (c : Char) (j : Nat) : Prop :=
  l[j]? = some c ∧ ∀ k, k < l.length → j < k → l[k]? ≠ some c

instance (l : List Char) (c : Char) (i : Nat) : Decidable (isFirstIdx l c i) := by
  unfold isFirstIdx
  exact instDecidableAnd

instance (l : List Char) (c : Char) (j : Nat) : Decidable (isLastIdx l c j) := by
  unfold isLastIdx
  exact instDecidableAnd

/-! # Theorems -/

/-! ## Helper lemmas about the dispatch loop -/

theorem process_foldl (tmap : List Char → Option (List Char)) (env : DispatchEnv)
    (l : List ToolCall) :
    ∀ (a : List (List Char)) (b : List Op),
      l.foldl
        (fun acc tc =>
          let r := process_one tmap env tc
          (acc.1 ++ [r.1], acc.2 ++ r.2)) (a, b) =
      (a ++ l.map (fun tc => (process_one tmap env tc).1),
       b ++ l.flatMap (fun tc => (process_one tmap env tc).2)) := by
  induction l with
  | nil => intro a b; simp
  | cons t ts ih =>
    intro a b
    simp only [List.foldl_cons, ih, List.map_cons, List.flatMap_cons,
      List.append_assoc, List.singleton_append]

theorem process_tool_call_eq (tmap : List Char → Option (List Char))
    (env : DispatchEnv) (tcs : List ToolCall) :
    process_tool_call tmap env (some tcs) =
      (tcs.map (fun tc => (process_one tmap env tc).1),
       tcs.flatMap (fun tc => (process_one tmap env tc).2)) := by
  cases tcs with
  | nil => rfl
  | cons t ts =>
    show (t :: ts).foldl _ ([], []) = _
    rw [process_foldl]
    simp

/-- C1: for a batch whose tool names are all registered and whose
invocations all succeed, `process_tool_call` returns exactly one result per
request, and the result at position `i` is the normalized content of the
response to request `i`. -/
theorem c1_dispatch_order_preserving (tmap : List Char → Option (List Char))
    (env : DispatchEnv) (tcs : List ToolCall)
    (hok : ∀ tc ∈ tcs, ∃ client args r,
        tmap tc.name = some client ∧ env.loads tc.arguments = some args ∧
        env.invokeTool client tc.name args = InvokeOutcome.resp r) :
    (process_tool_call tmap env (some tcs)).1.length = tcs.length ∧
    ∀ i, (hi : i < tcs.length) → ∃ client args r,
        tmap tcs[i].name = some client ∧
        env.loads tcs[i].arguments = some args ∧
        env.invokeTool client tcs[i].name args = InvokeOutcome.resp r ∧
        (process_tool_call tmap env (some tcs)).1[i]? =
          some (renderContent env r) := by
  constructor
  · rw [process_tool_call_eq]
    simp
  · intro i hi
    obtain ⟨client, args, r, h1, h2, h3⟩ := hok tcs[i] (tcs.getElem_mem hi)
    refine ⟨client, args, r, h1, h2, h3, ?_⟩
    rw [process_tool_call_eq]
    simp only [List.getElem?_map, List.getElem?_eq_getElem hi, Option.map_some']
    simp [process_one, h1, h2, h3]

/-- Witness for C1 at a concrete one-request batch on which the tool is
registered and the invocation succeeds. -/
theorem c1_dispatch_order_preserving_witness :
    (process_tool_call (fun _ => some (pys "s1"))
        { loads := fun _ => some JsonV.otherVal,
          invokeTool := fun _ _ _ =>
            InvokeOutcome.resp (RespContent.lst [ContentItem.textItem (pys "ok")]),
          strRepr := fun _ => [] }
        (some [{ id := [], name := [], arguments := [] }])).1.length = 1 ∧
    (process_tool_call (fun _ => some (pys "s1"))
        { loads := fun _ => some JsonV.otherVal,
          invokeTool := fun _ _ _ =>
            InvokeOutcome.resp (RespContent.lst [ContentItem.textItem (pys "ok")]),
          strRepr := fun _ => [] }
        (some [{ id := [], name := [], arguments := [] }])).1[0]? =
      some (pys "ok") := by
  have h := c1_dispatch_order_preserving (fun _ => some (pys "s1"))
    { loads := fun _ => some JsonV.otherVal,
      invokeTool := fun _ _ _ =>
        InvokeOutcome.resp (RespContent.lst [ContentItem.textItem (pys "ok")]),
      strRepr := fun _ => [] }
    [{ id := [], name := [], arguments := [] }]
    (by
      intro tc htc
      exact ⟨pys "s1", JsonV.otherVal,
        RespContent.lst [ContentItem.textItem (pys "ok")], rfl, rfl, rfl⟩)
  refine ⟨h.1, ?_⟩
  obtain ⟨client, args, r, _, _, h3, h4⟩ := h.2 0 (by decide)
  have hr : r = RespContent.lst [ContentItem.textItem (pys "ok")] := by
    injection h3.symm
  rw [h4, hr]
  rfl

/-- C3: a per-request failure (unregistered tool name, or arguments that
fail to decode) is caught inside the loop: it yields the corresponding
error string at that position, the batch keeps one result per request, and
every other request resolves exactly as it would alone. -/
theorem c3_per_request_failure_isolated (tmap : List Char → Option (List Char))
    (env : DispatchEnv) (tcs : List ToolCall) (i : Nat) (hi : i < tcs.length)
    (hfail : tmap tcs[i].name = none ∨ env.loads tcs[i].arguments = none) :
    (process_tool_call tmap env (some tcs)).1.length = tcs.length ∧
    (tmap tcs[i].name = none →
      (process_tool_call tmap env (some tcs)).1[i]? =
        some (pys "Error: Tool " ++ [squote] ++ tcs[i].name ++ [squote] ++
          pys " not found.")) ∧
    (∀ client, tmap tcs[i].name = some client →
      env.loads tcs[i].arguments = none →
      (process_tool_call tmap env (some tcs)).1[i]? =
        some (pys "Error: Invalid arguments for tool " ++ [squote] ++
          tcs[i].name ++ [squote] ++ pys ".")) ∧
    (∀ j, (hj : j < tcs.length) → j ≠ i →
      (process_tool_call tmap env (some tcs)).1[j]? =
        some (process_one tmap env tcs[j]).1) := by
  refine ⟨?_, ?_, ?_, ?_⟩
  · rw [process_tool_call_eq]; simp
  · intro hnone
    rw [process_tool_call_eq]
    simp only [List.getElem?_map, List.getElem?_eq_getElem hi, Option.map_some']
    simp [process_one, hnone]
  · intro client hsome hload
    rw [process_tool_call_eq]
    simp only [List.getElem?_map, List.getElem?_eq_getElem hi, Option.map_some']
    simp [process_one, hsome, hload]
  · intro j hj _
    rw [process_tool_call_eq]
    simp only [List.getElem?_map, List.getElem?_eq_getElem hj, Option.map_some']

/-- Witness for C3 at a concrete two-request batch: request 0 names an
unregistered tool and yields the error result, request 1 still resolves. -/
theorem c3_per_request_failure_isolated_witness :
    (process_tool_call (fun n => if n = pys "t2" then some (pys "s") else none)
        { loads := fun _ => some JsonV.otherVal,
          invokeTool := fun _ _ _ =>
            InvokeOutcome.resp (RespContent.lst [ContentItem.textItem (pys "ok")]),
          strRepr := fun _ => [] }
        (some [{ id := [], name := pys "missing", arguments := [] },
               { id := [], name := pys "t2", arguments := [] }])).1.length = 2 ∧
    (process_tool_call (fun n => if n = pys "t2" then some (pys "s") else none)
        { loads := fun _ => some JsonV.otherVal,
          invokeTool := fun _ _ _ =>
            InvokeOutcome.resp (RespContent.lst [ContentItem.textItem (pys "ok")]),
          strRepr := fun _ => [] }
        (some [{ id := [], name := pys "missing", arguments := [] },
               { id := [], name := pys "t2", arguments := [] }])).1[0]? =
      some (pys "Error: Tool " ++ [squote] ++ pys "missing" ++ [squote] ++
        pys " not found.") ∧
    (process_tool_call (fun n => if n = pys "t2" then some (pys "s") else none)
        { loads := fun _ => some JsonV.otherVal,
          invokeTool := fun _ _ _ =>
            InvokeOutcome.resp (RespContent.lst [ContentItem.textItem (pys "ok")]),
          strRepr := fun _ => [] }
        (some [{ id := [], name := pys "missing", arguments := [] },
               { id := [], name := pys "t2", arguments := [] }])).1[1]? =
      some (pys "ok") := by
  have h := c3_per_request_failure_isolated
    (fun n => if n = pys "t2" then some (pys "s") else none)
    { loads := fun _ => some JsonV.otherVal,
      invokeTool := fun _ _ _ =>
        InvokeOutcome.resp (RespContent.lst [ContentItem.textItem (pys "ok")]),
      strRepr := fun _ => [] }
    [{ id := [], name := pys "missing", arguments := [] },
     { id := [], name := pys "t2", arguments := [] }]
    0 (by decide) (Or.inl (by decide))
  refine ⟨h.1, ?_, ?_⟩
  · exact h.2.1 (by decide)
  · have h4 := h.2.2.2 1 (by decide) (by decide)
    rw [h4]
    decide

/-- C7: translating intent markTaskAsDone strips the known leading phrase
and the known trailing phrase: the query about marking task laundry as done
maps to the complete_task tool with argument task = laundry. -/
theorem c7_translate_mark_task_done :
    map_intent_to_tool (pys "Mark task laundry as done") (pys "markTaskAsDone") =
      some (pys "complete_task", [(pys "task", pys "laundry")]) := by
  decide

/-- C9: a falsy batch argument (None or the empty list) returns the empty
result list immediately, performing no registry lookup and no transport
operation. -/
theorem c9_empty_batch_noop (tmap : List Char → Option (List Char))
    (env : DispatchEnv) :
    process_tool_call tmap env none = ([], []) ∧
    process_tool_call tmap env (some []) = ([], []) :=
  ⟨rfl, rfl⟩

/-- C5: classification is total (the oracle exception and every parse
failure are caught): the result is the parsed action exactly when that
action is a member of ALLOWED_INTENTS, and the string other in every other
case (oracle exception, extraction failure, falsy or non-dict value, absent
or non-string or disallowed action). -/
theorem c5_classify_intent_total (loads : List Char → Option JsonV)
    (oracle : List Char → OracleOutcome) (query : List Char) :
    classify_intent loads oracle query =
      match spec_parsed_action loads oracle query with
      | some a => if a ∈ ALLOWED_INTENTS then a else pys "other"
      | none => pys "other" := by
  cases ho : oracle query with
  | raised => simp [classify_intent, spec_parsed_action, ho]
  | ok content =>
    cases hx : extract_json loads content with
    | none => simp [classify_intent, spec_parsed_action, ho, hx]
    | some v =>
      cases v with
      | obj fields =>
        cases fields with
        | nil => simp [classify_intent, spec_parsed_action, ho, hx, dictGet]
        | cons f fs =>
          cases hg : dictGet (f :: fs) (pys "action") with
          | none => simp [classify_intent, spec_parsed_action, ho, hx, hg]
          | some w =>
            cases w <;> simp [classify_intent, spec_parsed_action, ho, hx, hg]
      | str s => simp [classify_intent, spec_parsed_action, ho, hx]
      | otherVal => simp [classify_intent, spec_parsed_action, ho, hx]

/-- C10: calling a tool on a client whose session is not initialized
returns the ValueError naming the tool (the tool name is an infix of the
message), leaves the client state unchanged, and performs no transport
operation. -/
theorem c10_call_tool_uninitialized
    (transport : List Char → Option JsonV → InvokeOutcome) (c : MCPClient)
    (tool_name : List Char) (tool_input : Option JsonV)
    (h : c.session = false) :
    call_tool transport c tool_name tool_input =
      (CallToolResult.valueError
         (pys "Client " ++ [squote] ++ c.name ++ [squote] ++
          pys ": Session not initialized. Cannot call tool " ++ [squote] ++
          tool_name ++ [squote] ++ pys "."),
       c, []) ∧
    List.IsInfix tool_name
      (pys "Client " ++ [squote] ++ c.name ++ [squote] ++
       pys ": Session not initialized. Cannot call tool " ++ [squote] ++
       tool_name ++ [squote] ++ pys ".") := by
  constructor
  · unfold call_tool
    rw [h]
    simp
  · exact ⟨pys "Client " ++ [squote] ++ c.name ++ [squote] ++
      pys ": Session not initialized. Cannot call tool " ++ [squote],
      [squote] ++ pys ".", by simp [List.append_assoc]⟩

/-- Witness for C10 at a concrete uninitialized client. -/
theorem c10_call_tool_uninitialized_witness :
    call_tool (fun _ _ => InvokeOutcome.raised)
        { name := pys "m", session := false, sessionCtx := false,
          streamsCtx := false } (pys "get_tasks") none =
      (CallToolResult.valueError
         (pys "Client " ++ [squote] ++ pys "m" ++ [squote] ++
          pys ": Session not initialized. Cannot call tool " ++ [squote] ++
          pys "get_tasks" ++ [squote] ++ pys "."),
       { name := pys "m", session := false, sessionCtx := false,
         streamsCtx := false }, []) ∧
    List.IsInfix (pys "get_tasks")
      (pys "Client " ++ [squote] ++ pys "m" ++ [squote] ++
       pys ": Session not initialized. Cannot call tool " ++ [squote] ++
       pys "get_tasks" ++ [squote] ++ pys ".") :=
  c10_call_tool_uninitialized (fun _ _ => InvokeOutcome.raised)
    { name := pys "m", session := false, sessionCtx := false,
      streamsCtx := false } (pys "get_tasks") none rfl

/-! ## Helper lemmas about catalog aggregation and registration -/

theorem register_tools_eval (client : List Char) (ctools : List ToolParam)
    (m : List Char → Option (List Char)) (n : List Char) :
    register_tools client ctools m n =
      if ctools.any (fun tp => registeredName tp = some n) then some client
      else m n := by
  induction ctools generalizing m with
  | nil => simp [register_tools]
  | cons tp tps ih =>
    simp only [register_tools, List.foldl_cons] at ih ⊢
    cases hr : registeredName tp with
    | none =>
      rw [ih]
      simp [hr]
    | some k =>
      rw [ih]
      by_cases hany : tps.any (fun tp => registeredName tp = some n)
      · simp [hany, hr]
      · by_cases hk : k = n
        · subst hk
          simp [hany, hr, mapSet]
        · simp [hany, hr, hk, mapSet, Ne.symm hk]

theorem connect_foldl_tools (env : List Char → ConnectOutcome)
    (clients : List (List Char)) :
    ∀ st : ManagerState,
      (clients.foldl (connect_step env) st).tools =
        st.tools ++ clients.flatMap (contributedTools env) := by
  induction clients with
  | nil => intro st; simp
  | cons c cs ih =>
    intro st
    simp only [List.foldl_cons, ih, List.flatMap_cons]
    cases hc : env c <;>
      simp [connect_step, contributedTools, hc, List.append_assoc]

theorem connect_foldl_tool_map (env : List Char → ConnectOutcome)
    (clients : List (List Char)) (n : List Char) :
    ∀ st : ManagerState,
      (clients.foldl (connect_step env) st).tool_map n =
        match clients.reverse.find? (fun c => exposes env c n) with
        | some c => some c
        | none => st.tool_map n := by
  induction clients with
  | nil => intro st; simp
  | cons c cs ih =>
    intro st
    simp only [List.foldl_cons, ih, List.reverse_cons, List.find?_append]
    cases hfind : cs.reverse.find? (fun c => exposes env c n) with
    | some c2 => simp
    | none =>
      simp only [Option.none_or]
      cases hc : env c with
      | fail =>
        have hexp : exposes env c n = false := by simp [exposes, hc]
        simp [connect_step, hc, List.find?, hexp]
      | ok ctools =>
        have hexp : exposes env c n = ctools.any
            (fun tp => registeredName tp = some n) := by
          simp [exposes, hc]
        simp only [connect_step, hc, List.find?, hexp]
        rw [register_tools_eval]
        cases hany : ctools.any (fun tp => registeredName tp = some n) <;> simp

/-- Counterexample to C2: two successfully connected servers s1 (first)
and s2 (second) both expose a tool named X; the registry maps X to s2, the
last-registered server, not to the first-registered one (and the source
has no DuplicateToolError to record). -/
theorem c2_counterexample_last_wins :
    (connect_to_server [pys "s1", pys "s2"]
        (fun _ => ConnectOutcome.ok
          [{ ty := some (pys "function"),
             fn := some { name := some (pys "X") } }])).tool_map (pys "X") =
      some (pys "s2") ∧ pys "s2" ≠ pys "s1" := by
  constructor
  · decide
  · decide

/-- C2 as amended: on a duplicate tool name the later registration silently
overwrites the earlier one — for every tool name, the registry maps it to
the last client in registration order that connected successfully and
exposes a tool registering under that name (and to nothing when no such
client exists). -/
theorem c2_amended_duplicate_name_last_registered_wins
    (clients : List (List Char)) (env : List Char → ConnectOutcome)
    (n : List Char) :
    (connect_to_server clients env).tool_map n =
      clients.reverse.find? (fun c => exposes env c n) := by
  unfold connect_to_server
  rw [connect_foldl_tool_map]
  cases clients.reverse.find? (fun c => exposes env c n) <;> rfl

/-- Counterexample to C4: with a single configured server whose connection
attempt raises, connect_to_server completes normally (it has no raise path,
and no NoServersAvailable exists in the source), returning the empty
aggregate state instead of raising. -/
theorem c4_counterexample_no_raise_on_all_failed :
    connect_to_server [pys "s1"] (fun _ => ConnectOutcome.fail) =
      { tools := [], tool_map := fun _ => none } := rfl

/-- C4 as amended: each connection failure is isolated — the aggregated
catalog is exactly the concatenation, in order, of the successfully
connected clients catalogs (a failed client contributes zero tools), every
registry entry points at a successfully connected client exposing that
name, and when the client list is empty or every connection fails the call
completes normally with the empty aggregate state (it never raises; the
source has no NoServersAvailable). -/
theorem c4_amended_failure_isolation (clients : List (List Char))
    (env : List Char → ConnectOutcome) :
    (connect_to_server clients env).tools =
      clients.flatMap (contributedTools env) ∧
    (∀ n c, (connect_to_server clients env).tool_map n = some c →
      exposes env c n = true) ∧
    ((∀ c ∈ clients, env c = ConnectOutcome.fail) →
      connect_to_server clients env =
        { tools := [], tool_map := fun _ => none }) := by
  refine ⟨?_, ?_, ?_⟩
  · unfold connect_to_server
    rw [connect_foldl_tools]
    rfl
  · intro n c hmap
    unfold connect_to_server at hmap
    rw [connect_foldl_tool_map] at hmap
    cases hfind : (clients.reverse.find? (fun c => exposes env c n)) with
    | none => rw [hfind] at hmap; exact absurd hmap (by simp)
    | some c2 =>
      rw [hfind] at hmap
      cases hmap
      have hp := List.find?_some hfind
      simpa using hp
  · intro hall
    unfold connect_to_server
    induction clients with
    | nil => rfl
    | cons c cs ih =>
      rw [List.foldl_cons]
      have hc : env c = ConnectOutcome.fail := hall c (by simp)
      rw [show connect_step env { tools := [], tool_map := fun _ => none } c =
          { tools := [], tool_map := fun _ => none } by
        simp [connect_step, hc]]
      exact ih (fun c2 hc2 => hall c2 (by simp [hc2]))

/-- Witness for C4 at a concrete descriptor list in which every connection
fails: the call completes with the empty aggregate state. -/
theorem c4_amended_failure_isolation_witness :
    (connect_to_server [pys "s1", pys "s2"]
        (fun _ => ConnectOutcome.fail)).tools = [] ∧
    connect_to_server [pys "s1", pys "s2"] (fun _ => ConnectOutcome.fail) =
      { tools := [], tool_map := fun _ => none } := by
  have h := c4_amended_failure_isolation [pys "s1", pys "s2"]
    (fun _ => ConnectOutcome.fail)
  refine ⟨?_, h.2.2 (fun c hc => rfl)⟩
  rw [h.1]
  rfl

/-! ## Helper lemmas about teardown -/

theorem cleanup_foldl (aS aT : List Char → AexitOutcome) (r : List MCPClient) :
    ∀ (a : List MCPClient) (b : List Op),
      r.foldl
        (fun acc c =>
          let rr := client_cleanup aS aT c
          (rr.1 :: acc.1, acc.2 ++ rr.2)) (a, b) =
      (r.reverse.map (fun c => (client_cleanup aS aT c).1) ++ a,
       b ++ r.flatMap (fun c => (client_cleanup aS aT c).2)) := by
  induction r with
  | nil => intro a b; simp
  | cons c cs ih =>
    intro a b
    simp only [List.foldl_cons, ih, List.reverse_cons, List.map_append,
      List.map_cons, List.map_nil, List.flatMap_cons, List.append_assoc,
      List.singleton_append, List.nil_append]

theorem cleanup_eq (aS aT : List Char → AexitOutcome)
    (clients : List MCPClient) :
    cleanup aS aT clients =
      (clients.map (fun c => (client_cleanup aS aT c).1),
       clients.reverse.flatMap (fun c => (client_cleanup aS aT c).2)) := by
  unfold cleanup
  rw [cleanup_foldl]
  simp

theorem client_cleanup_aexit_independent
    (aS aT aS2 aT2 : List Char → AexitOutcome) (c : MCPClient) :
    client_cleanup aS aT c = client_cleanup aS2 aT2 c := by
  rcases c with ⟨n, s, sc, tc⟩
  cases hS : aS n <;> cases hT : aT n <;> cases hS2 : aS2 n <;>
    cases hT2 : aT2 n <;> cases s <;> cases sc <;> cases tc <;>
      simp [client_cleanup, hS, hT, hS2, hT2]

theorem client_cleanup_closed (aS aT : List Char → AexitOutcome)
    (c : MCPClient) :
    client_cleanup aS aT (client_cleanup aS aT c).1 =
      ((client_cleanup aS aT c).1, []) := by
  rcases c with ⟨n, s, sc, tc⟩
  cases hS : aS n <;> cases hT : aT n <;> cases s <;> cases sc <;> cases tc <;>
    simp [client_cleanup, hS, hT]

theorem client_cleanup_ops_open (aS aT : List Char → AexitOutcome)
    (c : MCPClient) (h1 : c.session = true) (h2 : c.sessionCtx = true)
    (h3 : c.streamsCtx = true) :
    (client_cleanup aS aT c).2 =
      [Op.closeSession c.name, Op.closeStreams c.name] := by
  rcases c with ⟨n, s, sc, tc⟩
  cases s <;> cases sc <;> cases tc <;> simp_all <;>
    cases hS : aS n <;> cases hT : aT n <;> simp [client_cleanup, hS, hT]

/-- C8: close_all cleans every client in strictly reverse-of-open order
(the operation trace is the reverse-order concatenation of the per-client
close operations, and for fully open clients is exactly close-session then
close-streams per client, newest first), its behavior is identical whether
or not the individual transport closes raise (failures are caught), and it
is idempotent: a second consecutive call changes no state and performs no
transport operation. -/
theorem c8_close_all_reverse_caught_idempotent
    (aS aT : List Char → AexitOutcome) (clients : List MCPClient) :
    (cleanup aS aT clients).1 =
      clients.map (fun c => (client_cleanup aS aT c).1) ∧
    (cleanup aS aT clients).2 =
      clients.reverse.flatMap (fun c => (client_cleanup aS aT c).2) ∧
    cleanup aS aT clients =
      cleanup (fun _ => AexitOutcome.ok) (fun _ => AexitOutcome.ok) clients ∧
    cleanup aS aT (cleanup aS aT clients).1 =
      ((cleanup aS aT clients).1, []) ∧
    ((∀ c ∈ clients, c.session = true ∧ c.sessionCtx = true ∧
        c.streamsCtx = true) →
      (cleanup aS aT clients).2 =
        clients.reverse.flatMap
          (fun c => [Op.closeSession c.name, Op.closeStreams c.name])) := by
  refine ⟨?_, ?_, ?_, ?_, ?_⟩
  · rw [cleanup_eq]
  · rw [cleanup_eq]
  · rw [cleanup_eq, cleanup_eq]
    refine congrArg₂ Prod.mk ?_ ?_
    · exact List.map_congr_left
        (fun c _ => by rw [client_cleanup_aexit_independent aS aT])
    · simp only [List.flatMap]
      exact congrArg List.flatten (List.map_congr_left
        (fun c _ => by rw [client_cleanup_aexit_independent aS aT]))
  · rw [cleanup_eq, cleanup_eq]
    refine congrArg₂ Prod.mk ?_ ?_
    · rw [List.map_map]
      refine List.map_congr_left (fun c _ => ?_)
      show (client_cleanup aS aT (client_cleanup aS aT c).1).1 = _
      rw [client_cleanup_closed]
    · rw [← List.map_reverse, List.flatMap_map]
      have hz : ∀ c ∈ clients.reverse,
          (client_cleanup aS aT (client_cleanup aS aT c).1).2 =
            (fun _ : MCPClient => ([] : List Op)) c := by
        intro c _
        show (client_cleanup aS aT (client_cleanup aS aT c).1).2 = []
        rw [client_cleanup_closed]
      simp only [List.flatMap]
      rw [List.map_congr_left hz]
      simp
  · intro hopen
    rw [cleanup_eq]
    simp only [List.flatMap]
    refine congrArg List.flatten (List.map_congr_left (fun c hc => ?_))
    have hcm : c ∈ clients := List.mem_reverse.mp hc
    obtain ⟨h1, h2, h3⟩ := hopen c hcm
    exact client_cleanup_ops_open aS aT c h1 h2 h3

/-- Witness for C8 at a concrete two-client list, both fully open, with a
session close that raises on the first-opened client: the trace closes the
second-opened client first, the failure is continued past, and the second
call is a no-op. -/
theorem c8_close_all_witness :
    (cleanup (fun n => if n = pys "c1" then AexitOutcome.raised
        else AexitOutcome.ok) (fun _ => AexitOutcome.ok)
      [{ name := pys "c1", session := true, sessionCtx := true,
         streamsCtx := true },
       { name := pys "c2", session := true, sessionCtx := true,
         streamsCtx := true }]).2 =
      [Op.closeSession (pys "c2"), Op.closeStreams (pys "c2"),
       Op.closeSession (pys "c1"), Op.closeStreams (pys "c1")] := by
  have h := c8_close_all_reverse_caught_idempotent
    (fun n => if n = pys "c1" then AexitOutcome.raised else AexitOutcome.ok)
    (fun _ => AexitOutcome.ok)
    [{ name := pys "c1", session := true, sessionCtx := true,
       streamsCtx := true },
     { name := pys "c2", session := true, sessionCtx := true,
       streamsCtx := true }]
  rw [h.2.2.2.2 (by intro c hc; fin_cases hc <;> exact ⟨rfl, rfl, rfl⟩)]
  rfl

/-! ## Helper lemmas about first and last brace indices -/

theorem pyFind_eq_of_first (l : List Char) (c : Char) (i : Nat)
    (h1 : l[i]? = some c) (h2 : ∀ k, k < i → l[k]? ≠ some c) :
    pyFind l c = (i : Int) := by
  obtain ⟨hlen, hget⟩ := List.getElem?_eq_some_iff.mp h1
  have hfi : l.findIdx? (fun x => x = c) = some i := by
    rw [List.findIdx?_eq_some_iff_getElem]
    refine ⟨hlen, by simp [hget], ?_⟩
    intro j hji
    have hj2 : j < l.length := Nat.lt_trans hji hlen
    have hh := h2 j hji
    rw [List.getElem?_eq_getElem hj2] at hh
    simp only [decide_eq_true_eq]
    intro heq
    exact hh (by rw [heq])
  unfold pyFind
  rw [hfi]

theorem pyFind_eq_neg_of_absent (l : List Char) (c : Char)
    (h : ∀ k : Nat, l[k]? ≠ some c) : pyFind l c = -1 := by
  have hfi : l.findIdx? (fun x => x = c) = none := by
    rw [List.findIdx?_eq_none_iff]
    intro x hx
    obtain ⟨k, hk, hgk⟩ := List.mem_iff_getElem.mp hx
    have hh := h k
    rw [List.getElem?_eq_getElem hk] at hh
    simp only [decide_eq_false_iff_not]
    intro heq
    exact hh (by rw [hgk, heq])
  unfold pyFind
  rw [hfi]

theorem pyRFind_eq_of_last (l : List Char) (c : Char) (j : Nat)
    (h1 : l[j]? = some c) (h2 : ∀ k, k < l.length → j < k → l[k]? ≠ some c) :
    pyRFind l c = (j : Int) := by
  obtain ⟨hlen, _⟩ := List.getElem?_eq_some_iff.mp h1
  have hm : l.length - 1 - j < l.reverse.length := by simp; omega
  have hrm : l.reverse[l.length - 1 - j]? = some c := by
    rw [List.getElem?_reverse (by omega : l.length - 1 - j < l.length)]
    have hjj : l.length - 1 - (l.length - 1 - j) = j := by omega
    rw [hjj, h1]
  have hfi : l.reverse.findIdx? (fun x => x = c) = some (l.length - 1 - j) := by
    rw [List.findIdx?_eq_some_iff_getElem]
    refine ⟨hm, ?_, ?_⟩
    · rw [List.getElem?_eq_getElem hm] at hrm
      simp only [decide_eq_true_eq]
      exact Option.some.inj hrm
    · intro k hk
      have hk2 : k < l.reverse.length := Nat.lt_trans hk hm
      have hkl : k < l.length := by simpa using hk2
      have hrk : l.reverse[k]? = l[l.length - 1 - k]? :=
        List.getElem?_reverse hkl
      have hh := h2 (l.length - 1 - k) (by omega) (by omega)
      simp only [decide_eq_true_eq]
      intro heq
      apply hh
      rw [← hrk, List.getElem?_eq_getElem hk2, heq]
  unfold pyRFind
  rw [hfi]
  show ((l.length : Int) - 1 - ((l.length - 1 - j : Nat) : Int)) = (j : Int)
  omega

theorem pyRFind_eq_neg_of_absent (l : List Char) (c : Char)
    (h : ∀ k : Nat, l[k]? ≠ some c) : pyRFind l c = -1 := by
  have hfi : l.reverse.findIdx? (fun x => x = c) = none := by
    rw [List.findIdx?_eq_none_iff]
    intro x hx
    rw [List.mem_reverse] at hx
    obtain ⟨k, hk, hgk⟩ := List.mem_iff_getElem.mp hx
    have hh := h k
    rw [List.getElem?_eq_getElem hk] at hh
    simp only [decide_eq_false_iff_not]
    intro heq
    exact hh (by rw [hgk, heq])
  unfold pyRFind
  rw [hfi]

theorem exists_firstIdx (l : List Char) (c : Char)
    (h : ∃ k : Nat, l[k]? = some c) : ∃ i, isFirstIdx l c i := by
  obtain ⟨k, hk⟩ := h
  obtain ⟨hkl, hgk⟩ := List.getElem?_eq_some_iff.mp hk
  have hmem : c ∈ l := hgk ▸ l.getElem_mem hkl
  have hsome : (l.findIdx? (fun x => x = c)).isSome := by
    rw [List.findIdx?_isSome]
    exact List.any_eq_true.mpr ⟨c, hmem, by simp⟩
  obtain ⟨i, hi⟩ := Option.isSome_iff_exists.mp hsome
  rw [List.findIdx?_eq_some_iff_getElem] at hi
  obtain ⟨hil, hpi, hmin⟩ := hi
  refine ⟨i, ?_, ?_⟩
  · rw [List.getElem?_eq_getElem hil]
    simp only [decide_eq_true_eq] at hpi
    rw [hpi]
  · intro k2 hk2 hkc
    have hk2l : k2 < l.length := Nat.lt_trans hk2 hil
    apply hmin k2 hk2
    rw [List.getElem?_eq_getElem hk2l] at hkc
    simp only [decide_eq_true_eq]
    exact Option.some.inj hkc

theorem exists_lastIdx (l : List Char) (c : Char)
    (h : ∃ k : Nat, l[k]? = some c) : ∃ j, isLastIdx l c j := by
  have hrev : ∃ k : Nat, l.reverse[k]? = some c := by
    obtain ⟨k, hk⟩ := h
    obtain ⟨hkl, _⟩ := List.getElem?_eq_some_iff.mp hk
    refine ⟨l.length - 1 - k, ?_⟩
    rw [List.getElem?_reverse (by omega : l.length - 1 - k < l.length)]
    have hkk : l.length - 1 - (l.length - 1 - k) = k := by omega
    rw [hkk, hk]
  obtain ⟨i, hi1, hi2⟩ := exists_firstIdx l.reverse c hrev
  obtain ⟨hil, _⟩ := List.getElem?_eq_some_iff.mp hi1
  have hill : i < l.length := by simpa using hil
  refine ⟨l.length - 1 - i, ?_, ?_⟩
  · rw [← List.getElem?_reverse hill]
    exact hi1
  · intro k hk hjk hkc
    apply hi2 (l.length - 1 - k) (by omega)
    rw [List.getElem?_reverse (by omega : l.length - 1 - k < l.length)]
    have hkk : l.length - 1 - (l.length - 1 - k) = k := by omega
    rw [hkk]
    exact hkc

/-- C6: extract_json parses exactly the window from the first opening brace
to the last closing brace: whenever i is the first opening-brace index and
j the last closing-brace index, the result is the parse of the inclusive
slice when j is after i and None otherwise; when either brace is absent the
result is None; and first and last indices exist whenever the braces occur. -/
theorem c6_extract_json_window (loads : List Char → Option JsonV)
    (content : List Char) :
    (∀ i j, isFirstIdx content lbrace i → isLastIdx content rbrace j →
      extract_json loads content =
        if i < j then loads (pySlice content i (j + 1)) else none) ∧
    (((∀ k : Nat, content[k]? ≠ some lbrace) ∨
      (∀ k : Nat, content[k]? ≠ some rbrace)) →
      extract_json loads content = none) ∧
    ((∃ k : Nat, content[k]? = some lbrace) →
      ∃ i, isFirstIdx content lbrace i) ∧
    ((∃ k : Nat, content[k]? = some rbrace) →
      ∃ j, isLastIdx content rbrace j) := by
  refine ⟨?_, ?_, exists_firstIdx content lbrace, exists_lastIdx content rbrace⟩
  · intro i j hi hj
    obtain ⟨hi1, hi2⟩ := hi
    obtain ⟨hj1, hj2⟩ := hj
    have hfind : pyFind content lbrace = (i : Int) :=
      pyFind_eq_of_first content lbrace i hi1 hi2
    have hrfind : pyRFind content rbrace = (j : Int) :=
      pyRFind_eq_of_last content rbrace j hj1 hj2
    unfold extract_json
    rw [hfind, hrfind]
    by_cases hij : i < j
    · rw [if_pos ⟨by omega, by omega, by exact_mod_cast hij⟩, if_pos hij]
      have hti : ((i : Int)).toNat = i := Int.toNat_natCast i
      have htj : ((j : Int)).toNat = j := Int.toNat_natCast j
      rw [hti, htj]
    · rw [if_neg, if_neg hij]
      rintro ⟨-, -, hgt⟩
      exact hij (by exact_mod_cast hgt)
  · rintro (habs | habs)
    · have hfind : pyFind content lbrace = -1 :=
        pyFind_eq_neg_of_absent content lbrace habs
      unfold extract_json
      rw [hfind]
      rw [if_neg]
      rintro ⟨hne, -, -⟩
      exact hne rfl
    · have hrfind : pyRFind content rbrace = -1 :=
        pyRFind_eq_neg_of_absent content rbrace habs
      unfold extract_json
      rw [hrfind]
      rw [if_neg]
      rintro ⟨-, hne, -⟩
      exact hne rfl

/-- Witness for C6 at a concrete response: the parser receives exactly the
substring from the first opening brace to the last closing brace. -/
theorem c6_extract_json_window_witness :
    extract_json
      (fun s => if s = pys "{a}" then some JsonV.otherVal else none)
      (pys "x{a}y") = some JsonV.otherVal := by
  have h := (c6_extract_json_window
    (fun s => if s = pys "{a}" then some JsonV.otherVal else none)
    (pys "x{a}y")).1 1 3 (by decide) (by decide)
  rw [h]
  rfl
